import Mathlib

/-!
Shallow embedding of the zonal-statistics pipeline of
`src/rasterstats/main.py` (function `zonal_stats`), used to check the
natural-language specification against the code.

Conventions of the embedding:
- machine floats are modelled by exact rationals (`ℚ`); the claims under
  study are about exact relations (equalities, `None`-propagation, dict
  shape), not float rounding;
- a raster is a row-major grid `List (List ℚ)`;
- Python dicts are association lists with insert-or-overwrite update,
  preserving insertion order, exactly like Python dicts;
- the geometry rasterizer is an external capability (spec section 4.4) and
  is a parameter of the pipeline; a concrete center-point-rule instance is
  supplied for evaluating the pipeline on concrete inputs;
- helper functions of the repository that live in `rasterstats/utils.py` /
  `rasterstats/io.py` (not part of the given sources) are modelled from the
  spec and carry a doc comment saying so;
- numpy masked-array aliasing is made explicit: in global-extent mode the
  per-feature sub-array is a slice view of the one pre-read global array
  (numpy basic slicing returns a view, and `np.ma.MaskedArray` defaults to
  `copy=False`), so the in-place fill performed by the `raster_out` branch
  (`masked.data[masked.mask] = nodata_value`, main.py line 250) writes
  through into the global array.  The embedding threads the global array
  as explicit state and applies that write-back.
-/

namespace RasterStats

/-- GDAL-style geotransform `(originX, pixelWidth, rowRot, originY, colRot,
pixelHeight)`, main.py uses it as the 6-tuple `rgt`. -/
structure GeoTransform where
  c0 : ℚ
  c1 : ℚ
  c2 : ℚ
  c3 : ℚ
  c4 : ℚ
  c5 : ℚ
deriving DecidableEq

/-- Pixel window `(xoff, yoff, xsize, ysize)` as produced by
`bbox_to_pixel_offsets`. -/
structure Offsets where
  xoff : ℤ
  yoff : ℤ
  xsize : ℤ
  ysize : ℤ
deriving DecidableEq

/-- Geographic bounding box `(minx, miny, maxx, maxy)`. -/
structure Bounds where
  minx : ℚ
  miny : ℚ
  maxx : ℚ
  maxy : ℚ
deriving DecidableEq

/-- Vector geometries as main.py distinguishes them: points and
multipoints (normalized at lines 117-122), axis-aligned rectangles as
produced by shapely `box`, multipolygons of such rectangles as produced by
the MultiPoint branch, and any other geometry kept opaque up to its
bounding box (only `geom.bounds` is consumed downstream). -/
inductive Geometry where
  | point (x y : ℚ)
  | multiPoint (pts : List (ℚ × ℚ))
  | box (b : Bounds)
  | multiPolygon (boxes : List Bounds)
  | other (bounds : Bounds)
deriving DecidableEq

abbrev Grid := List (List ℚ)
abbrev BoolGrid := List (List Bool)

/-- Keys of the per-feature Python dict `feature_stats`: stat names are
strings, and in categorical mode raw raster values are used as keys. -/
inductive Key where
  | str (s : String)
  | num (q : ℚ)
deriving DecidableEq

/-- Values stored in `feature_stats`: Python `None`, numbers (ints and
floats collapsed into `ℚ`), the symbolic square root of a rational (the
`std` stat is `sqrt(variance)`, irrational in general), the clipped grid
and geotransform of the `raster_out` branch. -/
inductive Value where
  | none
  | num (q : ℚ)
  | sqrtNum (q : ℚ)
  | grid (g : Grid)
  | gtv (t : GeoTransform)
deriving DecidableEq

/-- Python dict with string/number keys: association list in insertion
order. -/
abbrev Dict := List (Key × Value)

/-- Python dict update `d[k] = v`: overwrite in place if the key is
present, else append. -/
def dictSet (d : Dict) (k : Key) (v : Value) : Dict :=
  if d.any (fun kv => kv.1 = k) then
    d.map (fun kv => if kv.1 = k then (k, v) else kv)
  else d ++ [(k, v)]

/-- Python dict lookup (first, hence unique, binding of the key). -/
def dictGet (d : Dict) (k : Key) : Option Value :=
  (d.find? (fun kv => kv.1 = k)).map (fun kv => kv.2)

/-- Input feature as consumed by the loop of main.py: a geometry, an
optional feature id (`'fid' in feat`) and an optional property mapping
(`'properties' in feat`). -/
structure Feature where
  geometry : Geometry
  fid : Option Value
  properties : Option (List (String × Value))

instance : Inhabited Feature := ⟨⟨Geometry.other ⟨0, 0, 0, 0⟩, Option.none, Option.none⟩⟩

/-- Run configuration of `zonal_stats` (after `check_stats` / `raster_info`
normalization). -/
structure Config where
  stats : List String
  categorical : Bool
  categoryMap : Option (List (ℚ × String))
  copyProperties : Bool
  allTouched : Bool
  rasterOut : Bool
  globalSrcExtent : Bool
  nodata : Option ℚ

/-- Ceiling on `ℚ` via `Rat.floor` (kept executable). -/
def ratCeil (q : ℚ) : ℤ := -(Rat.floor (-q))

/-- Modelled from the spec: `bbox_to_pixel_offsets` lives in
`rasterstats/utils.py`, which is not among the given sources.  Spec 4.2:
convert the four bbox corners to pixel coordinates, take floor of the
minimum column/row and ceil of the maximum column/row, then clip to
`[0, cols) x [0, rows)`; width/height become 0 (not negative) when the
geometry lies entirely outside the raster.  `rshape` is `(rows, cols)`. -/
def bboxToPixelOffsets (rgt : GeoTransform) (b : Bounds) (rshape : ℕ × ℕ) : Offsets :=
  let colMin := Rat.floor ((b.minx - rgt.c0) / rgt.c1)
  let colMax := ratCeil ((b.maxx - rgt.c0) / rgt.c1)
  let rowMin := Rat.floor ((b.maxy - rgt.c3) / rgt.c5)
  let rowMax := ratCeil ((b.miny - rgt.c3) / rgt.c5)
  let x1 := max 0 colMin
  let y1 := max 0 rowMin
  let x2 := min (rshape.2 : ℤ) colMax
  let y2 := min (rshape.1 : ℤ) rowMax
  ⟨x1, y1, max 0 (x2 - x1), max 0 (y2 - y1)⟩

/-- Modelled from the spec: the full-extent window computed at main.py
lines 98-99 via `raster_extent_as_bounds` and `bbox_to_pixel_offsets`
(both in `rasterstats/utils.py`, not among the given sources) resolves to
the window covering the whole raster, offsets 0 (spec 4.5: one PixelWindow
covering the full raster extent); the ndarray branch at line 106 likewise
has zero offsets. -/
def globalSrcOffset (rshape : ℕ × ℕ) : Offsets :=
  ⟨0, 0, (rshape.2 : ℤ), (rshape.1 : ℤ)⟩

/-- Modelled from the spec: the raster accessor (spec section 6) reading a
pixel window, i.e. `src.read(band_num, window=pixel_offsets_to_window(o))`
with `pixel_offsets_to_window` from `rasterstats/utils.py` (not among the
given sources): the sub-grid of `ysize` rows starting at row `yoff` and
`xsize` columns starting at column `xoff`.  The same function models the
numpy slice `arr[ya:yb, xa:xb]` for non-negative in-range offsets. -/
def readWindow (g : Grid) (o : Offsets) : Grid :=
  ((g.drop o.yoff.toNat).take o.ysize.toNat).map
    (fun row => (row.drop o.xoff.toNat).take o.xsize.toNat)

/-- Geometry normalization of main.py lines 117-122: `buff = rgt[1] / 2.0`;
a Point is replaced by `box(*(geom.buffer(buff).bounds))` and a MultiPoint
by one such box per member point.  Shapely (an external dependency) gives
`pt.buffer(r).bounds = (x - r, y - r, x + r, y + r)` exactly (the buffer
polygon attains its extremes on the axes), and `box` builds the rectangle
of those bounds. -/
def normalizeGeom (rgt : GeoTransform) (g : Geometry) : Geometry :=
  let buff := rgt.c1 / 2
  match g with
  | Geometry.multiPoint pts =>
      Geometry.multiPolygon
        (pts.map (fun p => ⟨p.1 - buff, p.2 - buff, p.1 + buff, p.2 + buff⟩))
  | Geometry.point x y => Geometry.box ⟨x - buff, y - buff, x + buff, y + buff⟩
  | g => g

/-- Bounding box of a geometry (`geom.bounds` of shapely, consumed at
main.py line 124). -/
def geomBounds (g : Geometry) : Bounds :=
  match g with
  | Geometry.point x y => ⟨x, y, x, y⟩
  | Geometry.multiPoint pts =>
      match pts with
      | [] => ⟨0, 0, 0, 0⟩
      | p :: ps =>
          ps.foldl (fun b q => ⟨min b.minx q.1, min b.miny q.2, max b.maxx q.1, max b.maxy q.2⟩)
            ⟨p.1, p.2, p.1, p.2⟩
  | Geometry.box b => b
  | Geometry.multiPolygon bs =>
      match bs with
      | [] => ⟨0, 0, 0, 0⟩
      | b :: rest =>
          rest.foldl
            (fun a c => ⟨min a.minx c.minx, min a.miny c.miny, max a.maxx c.maxx, max a.maxy c.maxy⟩) b
  | Geometry.other b => b

/-- The new per-feature geotransform of main.py lines 129-136. -/
def newGtOf (rgt : GeoTransform) (o : Offsets) : GeoTransform :=
  ⟨rgt.c0 + o.xoff * rgt.c1, rgt.c1, 0, rgt.c3 + o.yoff * rgt.c5, 0, rgt.c5⟩

/-- External capability (spec section 4.4): the geometry rasterizer,
consumed, not implemented, by the repository.  The pipeline takes it as a
parameter. -/
abbrev Rasterizer := Geometry → Offsets → GeoTransform → Bool → BoolGrid

/-- Membership of a point in a geometry, used only by the concrete
rasterizer instance below. -/
def geomContainsPt (g : Geometry) (x y : ℚ) : Bool :=
  match g with
  | Geometry.point px py => decide (x = px ∧ y = py)
  | Geometry.multiPoint pts => pts.any (fun p => decide (x = p.1 ∧ y = p.2))
  | Geometry.box b => decide (b.minx ≤ x ∧ x ≤ b.maxx ∧ b.miny ≤ y ∧ y ≤ b.maxy)
  | Geometry.multiPolygon bs =>
      bs.any (fun b => decide (b.minx ≤ x ∧ x ≤ b.maxx ∧ b.miny ≤ y ∧ y ≤ b.maxy))
  | Geometry.other _ => false

/-- Concrete instance of the external rasterizer capability, used to run
the pipeline on concrete inputs: a cell is burned when its center point
lies in the geometry (the `all_touched=False` rule of spec 4.4). -/
def centerRasterize : Rasterizer := fun g o gt _ =>
  (List.range o.ysize.toNat).map (fun r =>
    (List.range o.xsize.toNat).map (fun c =>
      geomContainsPt g (gt.c0 + ((c : ℚ) + 1 / 2) * gt.c1) (gt.c3 + ((r : ℚ) + 1 / 2) * gt.c5)))

/-- Exclusion of one cell, main.py lines 165-171: a cell is masked out when
its raw value equals the nodata value or it is outside the rasterized
geometry.  `src_array == nodata_value` with `nodata_value = None` is the
numpy elementwise comparison against `None`, which is `False` everywhere. -/
def cellExcluded (nd : Option ℚ) (v : ℚ) (b : Bool) : Bool :=
  (match nd with
   | Option.some q => decide (v = q)
   | Option.none => false) || !b

/-- The mask of `np.ma.MaskedArray(src_array, mask=np.logical_or(src_array
== nodata_value, np.logical_not(rv_array)))`, main.py lines 165-171. -/
def maskOf (nd : Option ℚ) (src : Grid) (rv : BoolGrid) : BoolGrid :=
  List.zipWith (fun rs rb => List.zipWith (cellExcluded nd) rs rb) src rv

/-- Values surviving the mask in row-major order: `masked.compressed()`. -/
def compressedOf (src : Grid) (m : BoolGrid) : List ℚ :=
  (List.zipWith (fun rs rm =>
    (List.zipWith (fun v b => (v, b)) rs rm).filterMap
      (fun p => if p.2 then Option.none else Option.some p.1)) src m).flatten

/-- Ascending insertion sort, modelling the sorting done internally by
`np.unique`, `np.median` and `np.percentile`. -/
def insertSorted (x : ℚ) : List ℚ → List ℚ
  | [] => [x]
  | y :: ys => if x ≤ y then x :: y :: ys else y :: insertSorted x ys

/-- Sort a list of values ascending. -/
def sortQ (xs : List ℚ) : List ℚ := xs.foldr insertSorted []

/-- Minimum of the surviving values, `masked.min()` (defined on non-empty
input; numpy errors on empty input, which the code never reaches). -/
def listMin : List ℚ → ℚ
  | [] => 0
  | x :: xs => xs.foldl min x

/-- Maximum of the surviving values, `masked.max()`. -/
def listMax : List ℚ → ℚ
  | [] => 0
  | x :: xs => xs.foldl max x

/-- Sum of the surviving values, `masked.sum()`. -/
def listSum (xs : List ℚ) : ℚ := xs.foldl (· + ·) 0

/-- Population variance, so that `masked.std()` is its square root. -/
def varianceOf (xs : List ℚ) : ℚ :=
  let n : ℚ := xs.length
  let mu := listSum xs / n
  listSum (xs.map (fun x => (x - mu) * (x - mu))) / n

/-- Exact model of `np.median`: middle of the sorted values, average of
the two central values on even length. -/
def npMedian (xs : List ℚ) : ℚ :=
  let s := sortQ xs
  let n := s.length
  if n % 2 = 1 then s.getD (n / 2) 0
  else (s.getD (n / 2 - 1) 0 + s.getD (n / 2) 0) / 2

/-- Exact model of `np.percentile` with the default linear interpolation:
position `q / 100 * (n - 1)` in the sorted values, interpolating between
the two neighbouring values. -/
def npPercentile (xs : List ℚ) (q : ℚ) : ℚ :=
  let s := sortQ xs
  let n := s.length
  let pos := q / 100 * ((n : ℚ) - 1)
  let i := Rat.floor pos
  let f := pos - (i : ℚ)
  s.getD i.toNat 0 + f * (s.getD (i.toNat + 1) 0 - s.getD i.toNat 0)

/-- Digits of a stat-name suffix to a number. -/
def digitsToNat (cs : List Char) : ℕ :=
  cs.foldl (fun a c => a * 10 + (c.toNat - 48)) 0

/-- The check `s.startswith('percentile_')` of main.py line 229. -/
def isPercentileName (s : String) : Bool :=
  s.toList.take 11 == "percentile_".toList

/-- Modelled from the spec: `get_percentile` lives in
`rasterstats/utils.py`, not among the given sources; spec 4.6: a float
0-100 parsed from the stat name after the `percentile_` marker. -/
def getPercentile (s : String) : ℚ :=
  match (s.toList.drop 11).splitOn '.' with
  | [a] => (digitsToNat a : ℚ)
  | [a, b] => (digitsToNat a : ℚ) + (digitsToNat b : ℚ) / (10 ^ b.length : ℕ)
  | _ => 0

/-- The histogram `np.unique(masked.compressed(), return_counts=True)` of
main.py lines 180-182: distinct values ascending, with multiplicities. -/
def countsOf (xs : List ℚ) : List (ℚ × ℕ) :=
  (sortQ xs).dedup.map (fun v => (v, (xs.filter (fun y => decide (y = v))).length))

/-- Modelled from the spec: `remap_categories` lives in
`rasterstats/utils.py`, not among the given sources; spec 4.6: histogram
keys are remapped through the user value-to-label mapping before being
placed in the output, unmapped keys remain as their raw numeric value. -/
def remapCategories (cmap : List (ℚ × String)) (pc : List (ℚ × ℕ)) : Dict :=
  pc.map (fun kv =>
    (match (cmap.find? (fun e => decide (e.1 = kv.1))).map (fun e => e.2) with
     | Option.some lbl => Key.str lbl
     | Option.none => Key.num kv.1,
     Value.num kv.2))

/-- The categorical seed of `feature_stats`, main.py lines 184-189:
`dict(pixel_count)` (remapped through `category_map` when given) in
categorical mode, else the empty dict. -/
def categoricalBase (categorical : Bool) (cmap : Option (List (ℚ × String))) (c : List ℚ) : Dict :=
  if categorical then
    match cmap with
    | Option.some m => remapCategories m (countsOf c)
    | Option.none => (countsOf c).map (fun kv => (Key.num kv.1, Value.num kv.2))
  else []

/-- Modelled from the spec: `key_assoc_val` lives in
`rasterstats/utils.py`, not among the given sources; spec 4.6: the key of
the histogram entry with the extreme occurrence count, ties resolved to
the candidate encountered first in the histogram's order; none when the
histogram is empty (the `IndexError` branch of main.py lines 207-215). -/
def keyAssocVal (better : ℕ → ℕ → Bool) (pc : List (ℚ × ℕ)) : Option ℚ :=
  (pc.foldl (fun acc kv =>
      match acc with
      | Option.none => Option.some kv
      | Option.some best => if better kv.2 best.2 then Option.some kv else Option.some best)
    Option.none).map (fun kv => kv.1)

/-- Option-to-Value for the majority/minority stats. -/
def optNumVal : Option ℚ → Value
  | Option.some q => Value.num q
  | Option.none => Value.none

/-- Read a rational back out of a stored dict value (a stored stat is
always numeric where the code consumes it; cf. the `range` reuse at
main.py lines 218-227). -/
def valAsNum : Value → ℚ
  | Value.num q => q
  | _ => 0

/-- The `try: feature_stats[k] except KeyError: fallback` pattern of the
`range` stat, main.py lines 219-226. -/
def tryNum (d : Dict) (k : Key) (fb : ℚ) : ℚ :=
  match dictGet d k with
  | Option.some v => valAsNum v
  | Option.none => fb

/-- The first half of the non-empty-mask stats block, main.py lines
179-217: the categorical seed, then the conditional writes of min, max,
mean, count, sum, std, median, majority, minority and unique, in source
order. -/
def statsThroughUnique (categorical : Bool) (cmap : Option (List (ℚ × String)))
    (stats : List String) (c : List ℚ) : Dict :=
  let pc := countsOf c
  let fs := categoricalBase categorical cmap c
  let fs := if "min" ∈ stats then dictSet fs (Key.str "min") (Value.num (listMin c)) else fs
  let fs := if "max" ∈ stats then dictSet fs (Key.str "max") (Value.num (listMax c)) else fs
  let fs := if "mean" ∈ stats then
      dictSet fs (Key.str "mean") (Value.num (listSum c / (c.length : ℚ))) else fs
  let fs := if "count" ∈ stats then dictSet fs (Key.str "count") (Value.num (c.length : ℚ)) else fs
  let fs := if "sum" ∈ stats then dictSet fs (Key.str "sum") (Value.num (listSum c)) else fs
  let fs := if "std" ∈ stats then dictSet fs (Key.str "std") (Value.sqrtNum (varianceOf c)) else fs
  let fs := if "median" ∈ stats then dictSet fs (Key.str "median") (Value.num (npMedian c)) else fs
  let fs := if "majority" ∈ stats then
      dictSet fs (Key.str "majority") (optNumVal (keyAssocVal (fun a b => b < a) pc)) else fs
  let fs := if "minority" ∈ stats then
      dictSet fs (Key.str "minority") (optNumVal (keyAssocVal (fun a b => a < b) pc)) else fs
  if "unique" ∈ stats then dictSet fs (Key.str "unique") (Value.num (pc.length : ℚ)) else fs

/-- The non-empty-mask stats block of main.py lines 179-235:
`statsThroughUnique`, then the `range` stat (reusing the already-written
min/max entries via the try/except pattern, lines 218-227), then the
percentile loop (lines 229-235). -/
def buildFeatureStats (categorical : Bool) (cmap : Option (List (ℚ × String)))
    (stats : List String) (c : List ℚ) : Dict :=
  let fs := statsThroughUnique categorical cmap stats c
  let fs := if "range" ∈ stats then
      let rmin := tryNum fs (Key.str "min") (listMin c)
      let rmax := tryNum fs (Key.str "max") (listMax c)
      dictSet fs (Key.str "range") (Value.num (rmax - rmin))
    else fs
  (stats.filter isPercentileName).foldl
    (fun d p =>
      dictSet d (Key.str p)
        (if c = [] then Value.none else Value.num (npPercentile c (getPercentile p))))
    fs

/-- The `nodata` stat of main.py lines 237-242: a second masked array
keeping only the inclusion mask (`mask=np.logical_not(rv_array)`), whose
histogram is probed at the nodata value, defaulting to 0. -/
def nodataStat (nd : Option ℚ) (src : Grid) (rv : BoolGrid) : ℕ :=
  let c2 := compressedOf src (rv.map (fun row => row.map (fun b => !b)))
  match nd with
  | Option.some v => (c2.filter (fun y => decide (y = v))).length
  | Option.none => 0

/-- The masked-reducer section of main.py lines 165-242: build the mask,
fill every stat with None (count with 0) when nothing survives, else run
the stats block; in either case the `nodata` stat is then set from the
inclusion-only histogram. -/
def maskedReduce (cfg : Config) (src : Grid) (rv : BoolGrid) : Dict :=
  let m := maskOf cfg.nodata src rv
  let c := compressedOf src m
  let fs :=
    if c = [] then
      let fs0 : Dict := cfg.stats.map (fun s => (Key.str s, Value.none))
      if "count" ∈ cfg.stats then dictSet fs0 (Key.str "count") (Value.num 0) else fs0
    else buildFeatureStats cfg.categorical cfg.categoryMap cfg.stats c
  if "nodata" ∈ cfg.stats then
    dictSet fs (Key.str "nodata") (Value.num (nodataStat cfg.nodata src rv))
  else fs

/-- User-supplied reducer (`add_stats`), receiving the sub-array and its
mask. -/
abbrev AddStat := String × (Grid → BoolGrid → Value)

/-- Lookup of a mask cell, out-of-window cells unmasked. -/
def maskAt (m : BoolGrid) (r c : ℕ) : Bool := (m.getD r []).getD c false

/-- The write-through of `masked.data[masked.mask] = nodata_value`
(main.py line 250) into the pre-read global array: in global-extent mode
`src_array` is the numpy slice view `global_src_array[ya:yb, xa:xb]`
(main.py line 156) and `np.ma.MaskedArray` defaults to `copy=False`, so
the in-place fill writes the nodata value into every masked cell of the
viewed region of the global array. -/
def writeBack (garr : Grid) (g : Offsets) (o : Offsets) (m : BoolGrid) (ndv : ℚ) : Grid :=
  let ya := (o.yoff - g.yoff).toNat
  let xa := (o.xoff - g.xoff).toNat
  garr.mapIdx (fun r row =>
    row.mapIdx (fun c v =>
      if ya ≤ r ∧ xa ≤ c ∧ maskAt m (r - ya) (c - xa) then ndv else v))

/-- Result of processing one feature: its stats dict, the global array
after any write-back, and the sub-array that was read (none when the
feature is off the raster). -/
structure FeatureResult where
  stats : Dict
  globalArr : Grid
  subArr : Option Grid

/-- The `__fid__` assignment and property merge of main.py lines 255-265:
the fid (declared id if present, else the 0-based position) is written
first, then, with `copy_properties` and a property mapping present, every
property is written over the dict. -/
def finalize (cfg : Config) (fs : Dict) (i : ℕ) (feat : Feature) : Dict :=
  let fs := dictSet fs (Key.str "__fid__")
    (match feat.fid with
     | Option.some v => v
     | Option.none => Value.num (i : ℚ))
  if cfg.copyProperties then
    match feat.properties with
    | Option.some ps => ps.foldl (fun d kv => dictSet d (Key.str kv.1) kv.2) fs
    | Option.none => fs
  else fs

/-- One iteration of the feature loop of main.py lines 111-267: normalize
the geometry, resolve its window, short-circuit to all-None when the
window is empty, else read the sub-array (from the raster source in local
mode, as a slice of the threaded global array in global mode), rasterize,
reduce, apply user reducers, run the raster-out block (with its global
write-back), and attach fid/properties. -/
def processFeature (cfg : Config) (rgt : GeoTransform) (rshape : ℕ × ℕ) (raster : Grid)
    (rz : Rasterizer) (addStats : List AddStat) (garr : Grid) (i : ℕ) (feat : Feature) :
    FeatureResult :=
  let geom := normalizeGeom rgt feat.geometry
  let srcOff := bboxToPixelOffsets rgt (geomBounds geom) rshape
  let newGt := newGtOf rgt srcOff
  if srcOff.xsize ≤ 0 ∨ srcOff.ysize ≤ 0 then
    let fs : Dict := cfg.stats.map (fun s => (Key.str s, Value.none))
    ⟨finalize cfg fs i feat, garr, Option.none⟩
  else
    let srcArray :=
      if cfg.globalSrcExtent then
        let g := globalSrcOffset rshape
        readWindow garr ⟨srcOff.xoff - g.xoff, srcOff.yoff - g.yoff, srcOff.xsize, srcOff.ysize⟩
      else readWindow raster srcOff
    let rv := rz geom srcOff newGt cfg.allTouched
    let m := maskOf cfg.nodata srcArray rv
    let fs := maskedReduce cfg srcArray rv
    let fs := addStats.foldl (fun d a => dictSet d (Key.str a.1) (a.2 srcArray m)) fs
    let ndv := cfg.nodata.getD 0
    let filled :=
      List.zipWith (fun rs rm => List.zipWith (fun v b => if b then ndv else v) rs rm) srcArray m
    let fs :=
      if cfg.rasterOut then
        dictSet
          (dictSet (dictSet fs (Key.str "mini_raster") (Value.grid filled))
            (Key.str "mini_raster_GT") (Value.gtv newGt))
          (Key.str "mini_raster_NDV")
          (match cfg.nodata with
           | Option.some q => Value.num q
           | Option.none => Value.none)
      else fs
    let garr2 :=
      if cfg.rasterOut ∧ cfg.globalSrcExtent then
        writeBack garr (globalSrcOffset rshape) srcOff m ndv
      else garr
    ⟨finalize cfg fs i feat, garr2, Option.some srcArray⟩

/-- Everything the run produces: the result dicts in input order, the
per-feature sub-arrays (for stating the mode-equivalence claim), and the
final state of the global array. -/
structure RunOut where
  results : List Dict
  subs : List (Option Grid)
  globalArr : Grid

/-- The feature loop, threading the global array and the enumeration
counter (main.py lines 109-267). -/
def runFeatures (cfg : Config) (rgt : GeoTransform) (rshape : ℕ × ℕ) (raster : Grid)
    (rz : Rasterizer) (addStats : List AddStat) : Grid → ℕ → List Feature → RunOut
  | garr, _, [] => ⟨[], [], garr⟩
  | garr, i, f :: fsRest =>
    let r := processFeature cfg rgt rshape raster rz addStats garr i f
    let rest := runFeatures cfg rgt rshape raster rz addStats r.globalArr (i + 1) fsRest
    ⟨r.stats :: rest.results, r.subArr :: rest.subs, rest.globalArr⟩

/-- `zonal_stats`: the list of per-feature stat dicts.  In global-extent
mode the pre-read global array is the full raster (gdal branch, main.py
lines 96-104, reading the full-extent window; ndarray branch, lines
105-107, the input array itself). -/
def zonalStats (cfg : Config) (rgt : GeoTransform) (rshape : ℕ × ℕ) (raster : Grid)
    (rz : Rasterizer) (addStats : List AddStat) (feats : List Feature) : List Dict :=
  (runFeatures cfg rgt rshape raster rz addStats raster 0 feats).results

/-- The per-feature sub-arrays of a run. -/
def zonalStatsSubs (cfg : Config) (rgt : GeoTransform) (rshape : ℕ × ℕ) (raster : Grid)
    (rz : Rasterizer) (addStats : List AddStat) (feats : List Feature) : List (Option Grid) :=
  (runFeatures cfg rgt rshape raster rz addStats raster 0 feats).subs

/-- The global source array after the whole run. -/
def zonalStatsFinalGrid (cfg : Config) (rgt : GeoTransform) (rshape : ℕ × ℕ) (raster : Grid)
    (rz : Rasterizer) (addStats : List AddStat) (feats : List Feature) : Grid :=
  (runFeatures cfg rgt rshape raster rz addStats raster 0 feats).globalArr

/-! Dictionary lemmas. -/

theorem dictGet_cons (kv : Key × Value) (d : Dict) (k : Key) :
    dictGet (kv :: d) k = if kv.1 = k then Option.some kv.2 else dictGet d k := by
  simp only [dictGet, List.find?_cons]
  by_cases h : kv.1 = k
  · simp [h]
  · simp [h]

theorem dictGet_nil (k : Key) : dictGet [] k = Option.none := rfl

theorem dictGet_eq_none_of_all_ne {d : Dict} {k : Key} (h : ∀ kv ∈ d, kv.1 ≠ k) :
    dictGet d k = Option.none := by
  induction d with
  | nil => rfl
  | cons kv rest ih =>
      rw [dictGet_cons, if_neg (h kv (List.mem_cons_self kv rest))]
      exact ih (fun x hx => h x (List.mem_cons_of_mem kv hx))

theorem dictGet_dictSet_self (d : Dict) (k : Key) (v : Value) :
    dictGet (dictSet d k v) k = Option.some v := by
  unfold dictSet
  split
  · next hany =>
      induction d with
      | nil => simp at hany
      | cons kv rest ih =>
          simp only [List.map_cons]
          by_cases h : kv.1 = k
          · rw [if_pos h, dictGet_cons]
            simp
          · rw [if_neg h, dictGet_cons, if_neg h]
            apply ih
            simpa [h] using hany
  · next hany =>
      induction d with
      | nil => simp [dictGet]
      | cons kv rest ih =>
          simp only [List.any_cons, Bool.or_eq_true, not_or] at hany
          rw [List.cons_append, dictGet_cons, if_neg (by simpa using hany.1)]
          exact ih (by simpa using hany.2)

theorem dictGet_mapReplace_ne (d : Dict) (v : Value) {k k2 : Key} (h : k ≠ k2) :
    dictGet (d.map (fun kv => if kv.1 = k then (k, v) else kv)) k2 = dictGet d k2 := by
  induction d with
  | nil => rfl
  | cons kv rest ih =>
      simp only [List.map_cons]
      by_cases hk : kv.1 = k
      · rw [if_pos hk, dictGet_cons, dictGet_cons, hk, if_neg h, if_neg (hk ▸ h)]
        exact ih
      · rw [if_neg hk, dictGet_cons, dictGet_cons]
        by_cases h2 : kv.1 = k2
        · rw [if_pos h2, if_pos h2]
        · rw [if_neg h2, if_neg h2]
          exact ih

theorem dictGet_appendSingle_ne (d : Dict) (v : Value) {k k2 : Key} (h : k ≠ k2) :
    dictGet (d ++ [(k, v)]) k2 = dictGet d k2 := by
  induction d with
  | nil => simp [dictGet, List.find?, h]
  | cons kv rest ih =>
      rw [List.cons_append, dictGet_cons, dictGet_cons]
      by_cases h2 : kv.1 = k2
      · rw [if_pos h2, if_pos h2]
      · rw [if_neg h2, if_neg h2]
        exact ih

theorem dictGet_dictSet_ne (d : Dict) (v : Value) {k k2 : Key} (h : k ≠ k2) :
    dictGet (dictSet d k v) k2 = dictGet d k2 := by
  unfold dictSet
  split
  · exact dictGet_mapReplace_ne d v h
  · exact dictGet_appendSingle_ne d v h

theorem dictGet_ite_set_ne {c : Prop} [Decidable c] {d : Dict} {v : Value} {k k2 : Key}
    (h : k ≠ k2) :
    dictGet (if c then dictSet d k v else d) k2 = dictGet d k2 := by
  split
  · exact dictGet_dictSet_ne d v h
  · rfl

theorem dictGet_map_none (l : List String) (s : String) :
    dictGet (l.map (fun t => (Key.str t, Value.none))) (Key.str s) =
      if s ∈ l then Option.some Value.none else Option.none := by
  induction l with
  | nil => simp [dictGet]
  | cons t rest ih =>
      rw [List.map_cons, dictGet_cons]
      by_cases h : t = s
      · subst h
        simp
      · rw [if_neg (show ¬ Key.str t = Key.str s from by simpa using h), ih]
        have hm : (s ∈ t :: rest) ↔ s ∈ rest := by
          rw [List.mem_cons]
          constructor
          · rintro (h1 | h1)
            · exact absurd h1.symm h
            · exact h1
          · exact Or.inr
        rw [if_congr hm rfl rfl]

theorem dictGet_foldSet_of_ne (valfn : String → Value) (ps : List String) (d0 : Dict) (k : Key)
    (h : ∀ p ∈ ps, Key.str p ≠ k) :
    dictGet (ps.foldl (fun d p => dictSet d (Key.str p) (valfn p)) d0) k = dictGet d0 k := by
  induction ps generalizing d0 with
  | nil => rfl
  | cons p rest ih =>
      rw [List.foldl_cons, ih _ (fun x hx => h x (List.mem_cons_of_mem p hx)),
        dictGet_dictSet_ne _ _ (h p (List.mem_cons_self p rest))]

/-- Last binding of a key in a Python property mapping (Python dicts have
unique keys, so this is simply its binding when present). -/
def lastAssoc (ps : List (String × Value)) (k : String) : Option Value :=
  ps.foldl (fun acc kv => if kv.1 = k then Option.some kv.2 else acc) Option.none

theorem lastAssoc_foldl_acc (k : String) :
    ∀ (ps : List (String × Value)) (acc : Option Value),
      ps.foldl (fun a kv => if kv.1 = k then Option.some kv.2 else a) acc =
        match lastAssoc ps k with
        | Option.some v => Option.some v
        | Option.none => acc
  | [], acc => by simp [lastAssoc]
  | kv :: rest, acc => by
      have hrec := lastAssoc_foldl_acc k rest
      have hcons : lastAssoc (kv :: rest) k =
          match lastAssoc rest k with
          | Option.some v => Option.some v
          | Option.none => if kv.1 = k then Option.some kv.2 else Option.none := by
        show rest.foldl _ (if kv.1 = k then Option.some kv.2 else Option.none) = _
        exact hrec _
      rw [List.foldl_cons, hrec, hcons]
      rcases hl : lastAssoc rest k with _ | v
      · by_cases h : kv.1 = k <;> simp [h]
      · rfl

theorem dictGet_mergeProps (ps : List (String × Value)) (d0 : Dict) (k : String) :
    dictGet (ps.foldl (fun d kv => dictSet d (Key.str kv.1) kv.2) d0) (Key.str k) =
      match lastAssoc ps k with
      | Option.some v => Option.some v
      | Option.none => dictGet d0 (Key.str k) := by
  induction ps generalizing d0 with
  | nil => rfl
  | cons kv rest ih =>
      rw [List.foldl_cons, ih]
      have hc : lastAssoc (kv :: rest) k =
          match lastAssoc rest k with
          | Option.some v => Option.some v
          | Option.none => if kv.1 = k then Option.some kv.2 else Option.none := by
        show rest.foldl _ (if kv.1 = k then Option.some kv.2 else Option.none) = _
        rw [lastAssoc_foldl_acc]
      rw [hc]
      rcases lastAssoc rest k with _ | v
      · by_cases h : kv.1 = k
        · subst h
          simp [dictGet_dictSet_self]
        · simp only [h, if_neg, if_false]
          rw [dictGet_dictSet_ne _ _ (by simpa using h)]
      · rfl

/-! Lemmas about the fid/property tail of the per-feature processing. -/

theorem finalize_fid (cfg : Config) (fs : Dict) (i : ℕ) (feat : Feature)
    (h : cfg.copyProperties = true → ∀ ps, feat.properties = Option.some ps →
      lastAssoc ps "__fid__" = Option.none) :
    dictGet (finalize cfg fs i feat) (Key.str "__fid__") =
      Option.some (feat.fid.getD (Value.num (i : ℚ))) := by
  unfold finalize
  have hset : ∀ d : Dict, dictGet (dictSet d (Key.str "__fid__")
      (match feat.fid with
       | Option.some v => v
       | Option.none => Value.num (i : ℚ))) (Key.str "__fid__") =
      Option.some (feat.fid.getD (Value.num (i : ℚ))) := by
    intro d
    rw [dictGet_dictSet_self]
    rcases feat.fid <;> rfl
  cases hc : cfg.copyProperties with
  | false => simpa using hset fs
  | true =>
      simp only [if_true]
      rcases hp : feat.properties with _ | ps
      · exact hset fs
      · rw [dictGet_mergeProps, h hc ps hp]
        exact hset fs

theorem finalize_override (cfg : Config) (fs : Dict) (i : ℕ) (feat : Feature)
    (ps : List (String × Value)) (v : Value) (k : String)
    (hc : cfg.copyProperties = true) (hp : feat.properties = Option.some ps)
    (hv : lastAssoc ps k = Option.some v) :
    dictGet (finalize cfg fs i feat) (Key.str k) = Option.some v := by
  unfold finalize
  rw [hc, if_pos rfl, hp]
  rw [dictGet_mergeProps, hv]

theorem finalize_keep (cfg : Config) (fs : Dict) (i : ℕ) (feat : Feature) (s : String)
    (hs : s ≠ "__fid__")
    (h : cfg.copyProperties = true → ∀ ps, feat.properties = Option.some ps →
      lastAssoc ps s = Option.none) :
    dictGet (finalize cfg fs i feat) (Key.str s) = dictGet fs (Key.str s) := by
  unfold finalize
  have hset : ∀ d : Dict, dictGet (dictSet d (Key.str "__fid__")
      (match feat.fid with
       | Option.some v => v
       | Option.none => Value.num (i : ℚ))) (Key.str s) = dictGet d (Key.str s) := by
    intro d
    exact dictGet_dictSet_ne _ _ (by simpa using fun hh => hs hh.symm)
  cases hc : cfg.copyProperties with
  | false => simpa using hset fs
  | true =>
      simp only [if_true]
      rcases hp : feat.properties with _ | ps
      · exact hset fs
      · rw [dictGet_mergeProps, h hc ps hp]
        exact hset fs

unseal Rat.add Rat.mul Rat.sub Rat.inv

/-! Claim C2. -/

/-- C2 counterexample: the claim says the square built for a Point has
side length equal to the absolute value of pixelHeight (the sixth
geotransform entry).  With the geotransform (0, 1, 0, 0, 0, -2), whose
pixel width is 1 and pixel height is -2, the normalizer (main.py line 117:
buff = rgt[1] / 2.0) produces for the origin point the square with bounds
(-1/2, -1/2, 1/2, 1/2), of side length 1, while the absolute value of the
sixth entry is 2. -/
theorem C2_counterexample :
    normalizeGeom ⟨0, 1, 0, 0, 0, -2⟩ (Geometry.point 0 0) =
      Geometry.box ⟨-(1 / 2), -(1 / 2), 1 / 2, 1 / 2⟩
    ∧ (1 / 2 : ℚ) - -(1 / 2) = 1
    ∧ |(-2 : ℚ)| = 2
    ∧ (1 : ℚ) ≠ 2 := by
  refine ⟨by decide, by decide, ?_, by decide⟩
  rw [abs_of_neg (by norm_num)]
  norm_num

/-- C2 amended: for every Point the normalizer produces the axis-aligned
square centered on the point with side length equal to pixelWidth (the
second geotransform entry, rgt[1] of main.py line 117), not pixelHeight;
for every MultiPoint, one such square per member point; every non-point
geometry passes through unchanged. -/
theorem C2_amended (rgt : GeoTransform) (x y : ℚ) (pts : List (ℚ × ℚ)) (b : Bounds)
    (bs : List Bounds) :
    normalizeGeom rgt (Geometry.point x y) =
      Geometry.box ⟨x - rgt.c1 / 2, y - rgt.c1 / 2, x + rgt.c1 / 2, y + rgt.c1 / 2⟩
    ∧ (x + rgt.c1 / 2) - (x - rgt.c1 / 2) = rgt.c1
    ∧ (y + rgt.c1 / 2) - (y - rgt.c1 / 2) = rgt.c1
    ∧ normalizeGeom rgt (Geometry.multiPoint pts) =
        Geometry.multiPolygon (pts.map (fun p =>
          ⟨p.1 - rgt.c1 / 2, p.2 - rgt.c1 / 2, p.1 + rgt.c1 / 2, p.2 + rgt.c1 / 2⟩))
    ∧ normalizeGeom rgt (Geometry.box b) = Geometry.box b
    ∧ normalizeGeom rgt (Geometry.multiPolygon bs) = Geometry.multiPolygon bs
    ∧ normalizeGeom rgt (Geometry.other b) = Geometry.other b :=
  ⟨rfl, by ring, by ring, rfl, rfl, rfl, rfl⟩

/-! Claim C6. -/

/-- Row/column lookup through zipWith. -/
theorem get?_zipWith {α β γ : Type} (f : α → β → γ) :
    ∀ (xs : List α) (ys : List β) (i : ℕ) (a : α) (b : β),
      xs.get? i = Option.some a → ys.get? i = Option.some b →
      (List.zipWith f xs ys).get? i = Option.some (f a b)
  | [], _, _, _, _ => by intro h _; simp at h
  | _ :: _, [], _, _, _ => by intro _ h; simp at h
  | x :: xs, y :: ys, 0, a, b => by
      intro ha hb
      simp only [List.get?] at ha hb
      cases ha
      cases hb
      rfl
  | x :: xs, y :: ys, (i + 1), a, b => by
      intro ha hb
      simpa using get?_zipWith f xs ys i a b (by simpa using ha) (by simpa using hb)

/-- C6: a cell of the per-feature window is excluded (main.py lines
165-171) precisely when its raw value equals the nodata value or it lies
outside the rasterized geometry, and with no nodata value set the
exclusion is exactly the complement of the inclusion mask. -/
theorem C6_mask_cell (nd : Option ℚ) (src : Grid) (rv : BoolGrid) (i j : ℕ) (v : ℚ) (b : Bool)
    (hv : (src.get? i).bind (fun r => r.get? j) = Option.some v)
    (hb : (rv.get? i).bind (fun r => r.get? j) = Option.some b) :
    ((maskOf nd src rv).get? i).bind (fun r => r.get? j) = Option.some (cellExcluded nd v b)
    ∧ (cellExcluded nd v b = true ↔ (nd = Option.some v ∨ b = false))
    ∧ (nd = Option.none → cellExcluded nd v b = !b) := by
  refine ⟨?_, ?_, ?_⟩
  · rcases hrow : src.get? i with _ | row
    · rw [hrow] at hv
      simp at hv
    · rcases hrrow : rv.get? i with _ | rrow
      · rw [hrrow] at hb
        simp at hb
      · rw [hrow] at hv
        rw [hrrow] at hb
        simp only [Option.some_bind] at hv hb
        rw [maskOf, get?_zipWith _ src rv i row rrow hrow hrrow]
        simpa using get?_zipWith (cellExcluded nd) row rrow j v b hv hb
  · cases nd with
    | none =>
        have hcell : cellExcluded Option.none v b = !b := rfl
        rw [hcell, Bool.not_eq_true']
        constructor
        · exact fun h => Or.inr h
        · rintro (h | h)
          · exact Option.noConfusion h
          · exact h
    | some q =>
        have hcell : cellExcluded (Option.some q) v b = (decide (v = q) || !b) := rfl
        rw [hcell]
        simp only [Bool.or_eq_true, decide_eq_true_eq, Bool.not_eq_true', Option.some.injEq]
        exact or_congr eq_comm Iff.rfl
  · intro h
    subst h
    simp [cellExcluded]

/-- C6 witness: the mask cell lemma applied at the concrete nodata value
7, grid [[7, 1]], inclusion [[true, true]], cell (0, 0). -/
theorem C6_mask_cell_witness :
    ((maskOf (Option.some 7) [[7, 1]] [[true, true]]).get? 0).bind (fun r => r.get? 0) =
      Option.some (cellExcluded (Option.some 7) 7 true)
    ∧ (cellExcluded (Option.some 7) 7 true = true ↔
        (Option.some (7 : ℚ) = Option.some 7 ∨ true = false))
    ∧ (Option.some (7 : ℚ) = Option.none → cellExcluded (Option.some 7) 7 true = !true) :=
  C6_mask_cell (Option.some 7) [[7, 1]] [[true, true]] 0 0 7 true (by rfl) (by rfl)

/-! Concrete fixtures used by the counterexamples below.  Geotransforms
place the raster origin at the top-left with pixel size 1 and row height
-1 (north-up). -/

def cfgCountMin : Config :=
  ⟨["count", "min"], false, Option.none, false, false, false, false, Option.none⟩

def featOffRaster : Feature := ⟨Geometry.box ⟨-5, -5, -4, -4⟩, Option.none, Option.none⟩

/-- C1 counterexample: a polygon entirely outside a 2 by 2 raster, with
stats `count` and `min` requested.  The resolved pixel window is empty, and
the off-raster branch of main.py lines 138-141 fills every requested stat
with None: the claim says `count` maps to 0, but the code maps it to
None (the `count = 0` special case at lines 176-177 lives only in the
non-empty-window, all-masked branch). -/
theorem C1_counterexample :
    dictGet ((zonalStats cfgCountMin ⟨0, 1, 0, 2, 0, -1⟩ (2, 2) [[1, 2], [3, 4]]
        centerRasterize [] [featOffRaster]).headD []) (Key.str "count") =
      Option.some Value.none
    ∧ "count" ∈ cfgCountMin.stats
    ∧ Option.some Value.none ≠ Option.some (Value.num 0) := by
  refine ⟨by decide, by decide, by decide⟩

def cfgCountMinNodata : Config :=
  ⟨["count", "min", "nodata"], false, Option.none, false, false, false, false, Option.some 9⟩

def featUnitBox : Feature := ⟨Geometry.box ⟨0, 0, 1, 1⟩, Option.none, Option.none⟩

/-- C5 counterexample: a 1 by 1 raster holding only the nodata value 9 and
a polygon covering it.  The window is non-empty (the sub-array [[9]] is
read) and no cell survives masking, yet the requested stat `nodata` does
not resolve to None: the inclusion-only histogram pass of main.py lines
237-242 runs after the all-None fill and sets it to 1. -/
theorem C5_counterexample :
    zonalStatsSubs cfgCountMinNodata ⟨0, 1, 0, 1, 0, -1⟩ (1, 1) [[9]]
        centerRasterize [] [featUnitBox] = [Option.some [[9]]]
    ∧ dictGet ((zonalStats cfgCountMinNodata ⟨0, 1, 0, 1, 0, -1⟩ (1, 1) [[9]]
        centerRasterize [] [featUnitBox]).headD []) (Key.str "nodata") =
      Option.some (Value.num 1)
    ∧ "nodata" ∈ cfgCountMinNodata.stats
    ∧ "nodata" ≠ "count"
    ∧ Option.some (Value.num 1) ≠ Option.some Value.none := by
  refine ⟨by decide, by decide, by decide, by decide, by decide⟩

def cfgRangeCat : Config :=
  ⟨["range"], true, Option.some [(2, "min")], false, false, false, false, Option.none⟩

def featTwoCells : Feature := ⟨Geometry.box ⟨0, 0, 2, 1⟩, Option.none, Option.none⟩

/-- C7 counterexample: categorical mode with a category map labelling the
raster value 2 as the string "min", over the surviving values [2, 5] with
only `range` requested.  The try/except reuse of main.py lines 218-227
picks up the histogram entry stored under the key "min" (the category
count 1) as rmin, so `range` comes out as 5 - 1 = 4, while max - min over
the surviving values is 5 - 2 = 3. -/
theorem C7_counterexample :
    zonalStatsSubs cfgRangeCat ⟨0, 1, 0, 1, 0, -1⟩ (1, 2) [[2, 5]]
        centerRasterize [] [featTwoCells] = [Option.some [[2, 5]]]
    ∧ dictGet ((zonalStats cfgRangeCat ⟨0, 1, 0, 1, 0, -1⟩ (1, 2) [[2, 5]]
        centerRasterize [] [featTwoCells]).headD []) (Key.str "range") =
      Option.some (Value.num 4)
    ∧ listMax [2, 5] - listMin [2, 5] = 3
    ∧ Option.some (Value.num 4) ≠ Option.some (Value.num 3) := by
  refine ⟨by decide, by decide, by decide, by decide⟩

def cfgGlobalOut : Config :=
  ⟨["count"], false, Option.none, false, false, true, true, Option.some 99⟩

def featLeftPlus : Feature := ⟨Geometry.box ⟨0, 0, 6 / 5, 1⟩, Option.none, Option.none⟩

/-- C3: evaluation of the code at the failing input.  One feature over the
1 by 2 raster [[5, 7]] in global-extent mode with raster_out: the
feature's window covers both cells but its geometry covers only the left
cell, so the right cell is masked out, and the in-place fill
`masked.data[masked.mask] = nodata_value` of main.py line 250 writes the
nodata value 99 through the slice view into the pre-read global source
array, leaving it [[5, 99]] instead of the original [[5, 7]]. -/
theorem C3_global_mutation :
    zonalStatsFinalGrid cfgGlobalOut ⟨0, 1, 0, 1, 0, -1⟩ (1, 2) [[5, 7]]
        centerRasterize [] [featLeftPlus] = [[5, 99]]
    ∧ ([[5, 99]] : Grid) ≠ [[5, 7]] := by
  refine ⟨by decide, by decide⟩

def cfgLocalOut : Config :=
  ⟨["count"], false, Option.none, false, false, true, false, Option.some 99⟩

def featRightCell : Feature := ⟨Geometry.box ⟨1, 0, 2, 1⟩, Option.none, Option.none⟩

/-- C4: evaluation of the code at the failing input.  Two features over
the raster [[5, 7]] with raster_out requested, comparing the global-extent
run against the otherwise identical local run.  Processing the first
feature in global mode writes nodata 99 into the global array (main.py
line 250 through the slice view of line 156), so the second feature's
global-mode sub-array is [[99]] while its local-mode sub-array, re-read
from the source, is [[7]]: the two extent strategies do not produce
identical sub-arrays. -/
theorem C4_mode_divergence :
    zonalStatsSubs cfgGlobalOut ⟨0, 1, 0, 1, 0, -1⟩ (1, 2) [[5, 7]]
        centerRasterize [] [featLeftPlus, featRightCell] =
      [Option.some [[5, 7]], Option.some [[99]]]
    ∧ zonalStatsSubs cfgLocalOut ⟨0, 1, 0, 1, 0, -1⟩ (1, 2) [[5, 7]]
        centerRasterize [] [featLeftPlus, featRightCell] =
      [Option.some [[5, 7]], Option.some [[7]]]
    ∧ Option.some ([[99]] : Grid) ≠ Option.some [[7]] := by
  refine ⟨by decide, by decide, by decide⟩

def cfgCountProps : Config :=
  ⟨["count"], false, Option.none, true, false, false, false, Option.none⟩

def featFidProp : Feature :=
  ⟨Geometry.box ⟨-5, -5, -4, -4⟩, Option.some (Value.num 5),
    Option.some [("__fid__", Value.num 99)]⟩

/-- C8 counterexample: a feature with declared id 5 carrying a property
literally named `__fid__` with value 99, processed with copy_properties
enabled.  The property merge of main.py lines 263-265 runs after the
`__fid__` assignment of lines 255-261 and overwrites it, so the output
entry's `__fid__` is 99, not the declared id 5. -/
theorem C8_counterexample :
    dictGet ((zonalStats cfgCountProps ⟨0, 1, 0, 2, 0, -1⟩ (2, 2) [[1, 2], [3, 4]]
        centerRasterize [] [featFidProp]).headD []) (Key.str "__fid__") =
      Option.some (Value.num 99)
    ∧ featFidProp.fid = Option.some (Value.num 5)
    ∧ Option.some (Value.num 99) ≠ Option.some (Value.num 5) := by
  refine ⟨by decide, by decide, by decide⟩

/-! Claim C10. -/

/-- C10: the `__fid__` key is assigned (main.py lines 255-261) before the
property merge (lines 263-265), so for every feature processed with
copy_properties enabled whose property mapping binds the literal name
`__fid__` (with final binding v), the output entry's `__fid__` is v,
overriding the declared-id/ordinal rule, whatever the raster, window,
state or position. -/
theorem C10_fid_override (cfg : Config) (rgt : GeoTransform) (rshape : ℕ × ℕ)
    (raster : Grid) (rz : Rasterizer) (addStats : List AddStat) (garr : Grid) (i : ℕ)
    (feat : Feature) (ps : List (String × Value)) (v : Value)
    (hc : cfg.copyProperties = true) (hp : feat.properties = Option.some ps)
    (hv : lastAssoc ps "__fid__" = Option.some v) :
    dictGet (processFeature cfg rgt rshape raster rz addStats garr i feat).stats
      (Key.str "__fid__") = Option.some v := by
  unfold processFeature
  dsimp only
  split
  · exact finalize_override cfg _ i feat ps v "__fid__" hc hp hv
  · exact finalize_override cfg _ i feat ps v "__fid__" hc hp hv

/-- C10 witness: the override theorem applied to the concrete feature with
declared id 5 and a `__fid__` property bound to 99. -/
theorem C10_fid_override_witness :
    dictGet (processFeature cfgCountProps ⟨0, 1, 0, 2, 0, -1⟩ (2, 2) [[1, 2], [3, 4]]
        centerRasterize [] [[1, 2], [3, 4]] 0 featFidProp).stats (Key.str "__fid__") =
      Option.some (Value.num 99) :=
  C10_fid_override cfgCountProps ⟨0, 1, 0, 2, 0, -1⟩ (2, 2) [[1, 2], [3, 4]]
    centerRasterize [] [[1, 2], [3, 4]] 0 featFidProp [("__fid__", Value.num 99)]
    (Value.num 99) rfl rfl (by decide)

/-! Claim C1 (amended form). -/

/-- C1 amended: for every feature whose resolved pixel window is empty
(main.py line 138), zonal_stats raises no exception and produces a result
in which every requested stat, including `count`, maps to None (the
`count = 0` special case applies only to the non-empty-window all-masked
branch).  Stated per feature over the loop body; the hypotheses exclude
the `__fid__` key and property-merge collisions, which overwrite entries
after the stats are filled. -/
theorem C1_amended (cfg : Config) (rgt : GeoTransform) (rshape : ℕ × ℕ) (raster : Grid)
    (rz : Rasterizer) (addStats : List AddStat) (garr : Grid) (i : ℕ) (feat : Feature)
    (s : String)
    (hoff : (bboxToPixelOffsets rgt (geomBounds (normalizeGeom rgt feat.geometry)) rshape).xsize ≤ 0
      ∨ (bboxToPixelOffsets rgt (geomBounds (normalizeGeom rgt feat.geometry)) rshape).ysize ≤ 0)
    (hs : s ∈ cfg.stats) (hfid : s ≠ "__fid__")
    (hprops : cfg.copyProperties = true → ∀ ps, feat.properties = Option.some ps →
      lastAssoc ps s = Option.none) :
    dictGet (processFeature cfg rgt rshape raster rz addStats garr i feat).stats (Key.str s) =
      Option.some Value.none := by
  unfold processFeature
  dsimp only
  rw [if_pos hoff]
  dsimp only
  rw [finalize_keep cfg _ i feat s hfid hprops, dictGet_map_none, if_pos hs]

/-- C1 witness: the amended theorem applied to the off-raster polygon
fixture with stats `count` and `min`; the `count` entry is None. -/
theorem C1_amended_witness :
    dictGet (processFeature cfgCountMin ⟨0, 1, 0, 2, 0, -1⟩ (2, 2) [[1, 2], [3, 4]]
        centerRasterize [] [[1, 2], [3, 4]] 0 featOffRaster).stats (Key.str "count") =
      Option.some Value.none :=
  C1_amended cfgCountMin ⟨0, 1, 0, 2, 0, -1⟩ (2, 2) [[1, 2], [3, 4]] centerRasterize []
    [[1, 2], [3, 4]] 0 featOffRaster "count" (by decide) (by decide) (by decide)
    (fun h => absurd h (by decide))

/-! Claim C5 (amended form). -/

/-- C5 amended: for every feature whose window is non-empty but whose
excluded-mask is all-true (no cell survives masking, main.py line 173),
every requested stat resolves to None in the masked-reducer output, except
`count`, which resolves to 0 if requested, and except `nodata`, which the
separate inclusion-only histogram pass of main.py lines 237-242 sets to
the count of in-geometry nodata cells. -/
theorem C5_amended (cfg : Config) (src : Grid) (rv : BoolGrid)
    (hall : compressedOf src (maskOf cfg.nodata src rv) = []) :
    (∀ s ∈ cfg.stats, s ≠ "count" → s ≠ "nodata" →
      dictGet (maskedReduce cfg src rv) (Key.str s) = Option.some Value.none)
    ∧ ("count" ∈ cfg.stats →
      dictGet (maskedReduce cfg src rv) (Key.str "count") = Option.some (Value.num 0)) := by
  unfold maskedReduce
  dsimp only
  rw [if_pos hall]
  constructor
  · intro s hs hc hn
    rw [dictGet_ite_set_ne (show Key.str "nodata" ≠ Key.str s from
        by simpa using fun hh => hn hh.symm)]
    rw [dictGet_ite_set_ne (show Key.str "count" ≠ Key.str s from
        by simpa using fun hh => hc hh.symm)]
    rw [dictGet_map_none, if_pos hs]
  · intro hcnt
    rw [dictGet_ite_set_ne (show Key.str "nodata" ≠ Key.str "count" from by decide)]
    rw [if_pos hcnt, dictGet_dictSet_self]

/-- C5 witness: the amended theorem applied to the all-nodata 1 by 1
fixture; `min` resolves to None and `count` to 0. -/
theorem C5_amended_witness :
    dictGet (maskedReduce cfgCountMinNodata [[9]] [[true]]) (Key.str "min") =
      Option.some Value.none
    ∧ dictGet (maskedReduce cfgCountMinNodata [[9]] [[true]]) (Key.str "count") =
      Option.some (Value.num 0) := by
  have h := C5_amended cfgCountMinNodata [[9]] [[true]] (by decide)
  exact ⟨h.1 "min" (by decide) (by decide) (by decide), h.2 (by decide)⟩

/-! Claim C8 (amended form). -/

/-- The `__fid__` entry of one processed feature, in the absence of a
colliding property merge. -/
theorem processFeature_fid (cfg : Config) (rgt : GeoTransform) (rshape : ℕ × ℕ)
    (raster : Grid) (rz : Rasterizer) (addStats : List AddStat) (garr : Grid) (i : ℕ)
    (feat : Feature)
    (h : cfg.copyProperties = true → ∀ ps, feat.properties = Option.some ps →
      lastAssoc ps "__fid__" = Option.none) :
    dictGet (processFeature cfg rgt rshape raster rz addStats garr i feat).stats
      (Key.str "__fid__") = Option.some (feat.fid.getD (Value.num (i : ℚ))) := by
  unfold processFeature
  dsimp only
  split
  · exact finalize_fid cfg _ i feat h
  · exact finalize_fid cfg _ i feat h

/-- Shape of the loop output: one result per feature, and each entry's
`__fid__` is the declared id when present, else the running enumeration
index. -/
theorem runFeatures_shape (cfg : Config) (rgt : GeoTransform) (rshape : ℕ × ℕ)
    (raster : Grid) (rz : Rasterizer) (addStats : List AddStat) :
    ∀ (feats : List Feature) (garr : Grid) (j : ℕ),
      (runFeatures cfg rgt rshape raster rz addStats garr j feats).results.length = feats.length
      ∧ ∀ i, i < feats.length →
        (cfg.copyProperties = true →
          ∀ ps, (feats.getD i default).properties = Option.some ps →
          lastAssoc ps "__fid__" = Option.none) →
        dictGet ((runFeatures cfg rgt rshape raster rz addStats garr j feats).results.getD i [])
          (Key.str "__fid__") =
          Option.some ((feats.getD i default).fid.getD (Value.num ((j + i : ℕ) : ℚ)))
  | [], garr, j => by
      refine ⟨rfl, ?_⟩
      intro i hi
      exact absurd hi (by simp)
  | f :: rest, garr, j => by
      have ih := runFeatures_shape cfg rgt rshape raster rz addStats rest
        (processFeature cfg rgt rshape raster rz addStats garr j f).globalArr (j + 1)
      constructor
      · show _ + 1 = _ + 1
        rw [ih.1]
      · intro i hi hprop
        cases i with
        | zero =>
            show dictGet (processFeature cfg rgt rshape raster rz addStats garr j f).stats
              (Key.str "__fid__") = _
            rw [processFeature_fid cfg rgt rshape raster rz addStats garr j f hprop]
            norm_num
        | succ i2 =>
            show dictGet ((runFeatures cfg rgt rshape raster rz addStats _ (j + 1)
              rest).results.getD i2 []) (Key.str "__fid__") = _
            rw [ih.2 i2 (by exact Nat.lt_of_succ_lt_succ hi) hprop]
            have harith : (j + 1) + i2 = j + (i2 + 1) := by omega
            rw [harith]
            rw [List.getD_cons_succ]

/-- C8 amended: for every input feature sequence, the output list has
exactly one entry per input feature, in input order, and each entry's
`__fid__` equals the feature's declared id when present, else its 0-based
position, provided no feature merges a property literally named `__fid__`
over it (with copy_properties enabled such a property wins instead,
main.py lines 255-265). -/
theorem C8_amended (cfg : Config) (rgt : GeoTransform) (rshape : ℕ × ℕ) (raster : Grid)
    (rz : Rasterizer) (addStats : List AddStat) (feats : List Feature)
    (hp : ∀ f ∈ feats, cfg.copyProperties = true →
      ∀ ps, f.properties = Option.some ps → lastAssoc ps "__fid__" = Option.none) :
    (zonalStats cfg rgt rshape raster rz addStats feats).length = feats.length
    ∧ ∀ i, i < feats.length →
      dictGet ((zonalStats cfg rgt rshape raster rz addStats feats).getD i [])
        (Key.str "__fid__") =
        Option.some ((feats.getD i default).fid.getD (Value.num (i : ℚ))) := by
  have h := runFeatures_shape cfg rgt rshape raster rz addStats feats raster 0
  refine ⟨h.1, ?_⟩
  intro i hi
  have hmem : feats.getD i default ∈ feats := by
    rw [List.getD_eq_getElem?_getD, List.getElem?_eq_getElem hi]
    simp only [Option.getD_some]
    exact List.getElem_mem hi
  have := h.2 i hi (fun hc ps hps => hp (feats.getD i default) hmem hc ps hps)
  simpa using this

def featWithFid : Feature := ⟨Geometry.box ⟨0, 0, 1, 1⟩, Option.some (Value.num 5), Option.none⟩

/-- C8 witness: the amended theorem applied to a two-feature run (first
feature without declared id, second with declared id 5): two entries, the
first keyed by ordinal 0, the second by the declared id. -/
theorem C8_amended_witness :
    (zonalStats cfgCountMin ⟨0, 1, 0, 2, 0, -1⟩ (2, 2) [[1, 2], [3, 4]] centerRasterize []
      [featOffRaster, featWithFid]).length = 2
    ∧ dictGet ((zonalStats cfgCountMin ⟨0, 1, 0, 2, 0, -1⟩ (2, 2) [[1, 2], [3, 4]]
        centerRasterize [] [featOffRaster, featWithFid]).getD 0 []) (Key.str "__fid__") =
      Option.some (Value.num 0)
    ∧ dictGet ((zonalStats cfgCountMin ⟨0, 1, 0, 2, 0, -1⟩ (2, 2) [[1, 2], [3, 4]]
        centerRasterize [] [featOffRaster, featWithFid]).getD 1 []) (Key.str "__fid__") =
      Option.some (Value.num 5) := by
  have h := C8_amended cfgCountMin ⟨0, 1, 0, 2, 0, -1⟩ (2, 2) [[1, 2], [3, 4]] centerRasterize
    [] [featOffRaster, featWithFid] (fun f _ hc => absurd hc (by decide))
  refine ⟨h.1, ?_, ?_⟩
  · have := h.2 0 (by decide)
    simpa using this
  · have := h.2 1 (by decide)
    simpa using this

/-! Lookups into the first half of the stats block. -/

theorem statsThroughUnique_min (categorical : Bool) (cmap : Option (List (ℚ × String)))
    (stats : List String) (c : List ℚ)
    (hbase : ∀ kv ∈ categoricalBase categorical cmap c, kv.1 ≠ Key.str "min") :
    dictGet (statsThroughUnique categorical cmap stats c) (Key.str "min") =
      if "min" ∈ stats then Option.some (Value.num (listMin c)) else Option.none := by
  unfold statsThroughUnique
  dsimp only
  rw [dictGet_ite_set_ne (show Key.str "unique" ≠ Key.str "min" from by decide)]
  rw [dictGet_ite_set_ne (show Key.str "minority" ≠ Key.str "min" from by decide)]
  rw [dictGet_ite_set_ne (show Key.str "majority" ≠ Key.str "min" from by decide)]
  rw [dictGet_ite_set_ne (show Key.str "median" ≠ Key.str "min" from by decide)]
  rw [dictGet_ite_set_ne (show Key.str "std" ≠ Key.str "min" from by decide)]
  rw [dictGet_ite_set_ne (show Key.str "sum" ≠ Key.str "min" from by decide)]
  rw [dictGet_ite_set_ne (show Key.str "count" ≠ Key.str "min" from by decide)]
  rw [dictGet_ite_set_ne (show Key.str "mean" ≠ Key.str "min" from by decide)]
  rw [dictGet_ite_set_ne (show Key.str "max" ≠ Key.str "min" from by decide)]
  by_cases h : "min" ∈ stats
  · rw [if_pos h, if_pos h, dictGet_dictSet_self]
  · rw [if_neg h, if_neg h, dictGet_eq_none_of_all_ne hbase]

theorem statsThroughUnique_max (categorical : Bool) (cmap : Option (List (ℚ × String)))
    (stats : List String) (c : List ℚ)
    (hbase : ∀ kv ∈ categoricalBase categorical cmap c, kv.1 ≠ Key.str "max") :
    dictGet (statsThroughUnique categorical cmap stats c) (Key.str "max") =
      if "max" ∈ stats then Option.some (Value.num (listMax c)) else Option.none := by
  unfold statsThroughUnique
  dsimp only
  rw [dictGet_ite_set_ne (show Key.str "unique" ≠ Key.str "max" from by decide)]
  rw [dictGet_ite_set_ne (show Key.str "minority" ≠ Key.str "max" from by decide)]
  rw [dictGet_ite_set_ne (show Key.str "majority" ≠ Key.str "max" from by decide)]
  rw [dictGet_ite_set_ne (show Key.str "median" ≠ Key.str "max" from by decide)]
  rw [dictGet_ite_set_ne (show Key.str "std" ≠ Key.str "max" from by decide)]
  rw [dictGet_ite_set_ne (show Key.str "sum" ≠ Key.str "max" from by decide)]
  rw [dictGet_ite_set_ne (show Key.str "count" ≠ Key.str "max" from by decide)]
  rw [dictGet_ite_set_ne (show Key.str "mean" ≠ Key.str "max" from by decide)]
  by_cases h : "max" ∈ stats
  · rw [if_pos h, if_pos h, dictGet_dictSet_self]
  · rw [if_neg h, if_neg h]
    rw [dictGet_ite_set_ne (show Key.str "min" ≠ Key.str "max" from by decide)]
    rw [dictGet_eq_none_of_all_ne hbase]

/-- The `range` entry of the full stats block: with no histogram key
colliding with the strings "min"/"max", the try/except reuse of main.py
lines 218-227 always subtracts the true minimum from the true maximum of
the surviving values, whether or not min/max were requested. -/
theorem buildFeatureStats_range (categorical : Bool) (cmap : Option (List (ℚ × String)))
    (stats : List String) (c : List ℚ) (hr : "range" ∈ stats)
    (hbase : ∀ kv ∈ categoricalBase categorical cmap c,
      kv.1 ≠ Key.str "min" ∧ kv.1 ≠ Key.str "max") :
    dictGet (buildFeatureStats categorical cmap stats c) (Key.str "range") =
      Option.some (Value.num (listMax c - listMin c)) := by
  unfold buildFeatureStats
  dsimp only
  have hnopct : ∀ p ∈ stats.filter isPercentileName, Key.str p ≠ Key.str "range" := by
    intro p hp hk
    have hpred := (List.mem_filter.mp hp).2
    have hpr : p = "range" := Key.str.inj hk
    subst hpr
    exact absurd hpred (by decide)
  rw [dictGet_foldSet_of_ne _ _ _ _ hnopct]
  rw [if_pos hr, dictGet_dictSet_self]
  have hmin := statsThroughUnique_min categorical cmap stats c (fun kv hkv => (hbase kv hkv).1)
  have hmax := statsThroughUnique_max categorical cmap stats c (fun kv hkv => (hbase kv hkv).2)
  unfold tryNum
  rw [hmin, hmax]
  by_cases h1 : "min" ∈ stats <;> by_cases h2 : "max" ∈ stats <;>
    simp [h1, h2, valAsNum]

/-! Claim C7 (amended form). -/

/-- C7 amended: for every feature with a non-empty surviving value set,
the `range` stat equals the maximum minus the minimum of the surviving
values, whether or not `min` and `max` were requested, provided no
categorical histogram key placed in the stats dict is the literal string
"min" or "max" (with such a category label, the try/except reuse of
main.py lines 218-227 picks up the category count instead). -/
theorem C7_amended (cfg : Config) (src : Grid) (rv : BoolGrid)
    (hne : compressedOf src (maskOf cfg.nodata src rv) ≠ [])
    (hr : "range" ∈ cfg.stats)
    (hbase : ∀ kv ∈ categoricalBase cfg.categorical cfg.categoryMap
        (compressedOf src (maskOf cfg.nodata src rv)),
      kv.1 ≠ Key.str "min" ∧ kv.1 ≠ Key.str "max") :
    dictGet (maskedReduce cfg src rv) (Key.str "range") =
      Option.some (Value.num (listMax (compressedOf src (maskOf cfg.nodata src rv)) -
        listMin (compressedOf src (maskOf cfg.nodata src rv)))) := by
  unfold maskedReduce
  dsimp only
  rw [if_neg hne]
  rw [dictGet_ite_set_ne (show Key.str "nodata" ≠ Key.str "range" from by decide)]
  exact buildFeatureStats_range _ _ _ _ hr hbase

def cfgRangeOnly : Config :=
  ⟨["range"], false, Option.none, false, false, false, false, Option.none⟩

/-- C7 witness: the amended theorem applied to the surviving values
[2, 5] with only `range` requested and no categorical mode: the range is
3. -/
theorem C7_amended_witness :
    dictGet (maskedReduce cfgRangeOnly [[2, 5]] [[true, true]]) (Key.str "range") =
      Option.some (Value.num 3) := by
  have h := C7_amended cfgRangeOnly [[2, 5]] [[true, true]] (by decide) (by decide)
    (by intro kv hkv; exact absurd hkv (List.not_mem_nil kv))
  rw [h]
  decide

/-! Claim C9. -/

theorem insertSorted_length (x : ℚ) : ∀ l : List ℚ, (insertSorted x l).length = l.length + 1
  | [] => rfl
  | y :: ys => by
      unfold insertSorted
      split
      · rfl
      · simp [insertSorted_length x ys]

theorem sortQ_length : ∀ xs : List ℚ, (sortQ xs).length = xs.length
  | [] => rfl
  | x :: xs => by
      show (insertSorted x (sortQ xs)).length = _
      rw [insertSorted_length, sortQ_length xs]
      rfl

theorem ratFloor_eq_intFloor (q : ℚ) : Rat.floor q = ⌊q⌋ :=
  (Rat.floor_def' q).trans Rat.floor_def.symm

/-- The 50th linear-interpolation percentile of a non-empty value list is
exactly its median: for odd length both take the middle sorted value, for
even length the percentile interpolates halfway between the two central
values, which is their average. -/
theorem npPercentile_50 (xs : List ℚ) (h : xs ≠ []) : npPercentile xs 50 = npMedian xs := by
  unfold npPercentile npMedian
  dsimp only
  have hn : (sortQ xs).length ≠ 0 := by
    rw [sortQ_length]
    simpa using h
  set s := sortQ xs with hs
  set n := s.length with hndef
  rcases Nat.even_or_odd n with he | ho
  · obtain ⟨k, hk⟩ := he
    have hkpos : k ≠ 0 := by omega
    obtain ⟨m, hm⟩ := Nat.exists_eq_succ_of_ne_zero hkpos
    have hn2 : n = 2 * m + 2 := by omega
    have hpos : (50 : ℚ) / 100 * ((n : ℚ) - 1) = ((m : ℤ) : ℚ) + 1 / 2 := by
      rw [hn2]
      push_cast
      ring
    rw [hpos]
    have hfloor : Rat.floor (((m : ℤ) : ℚ) + 1 / 2) = (m : ℤ) := by
      rw [ratFloor_eq_intFloor, Int.floor_int_add]
      norm_num
    rw [hfloor, Int.toNat_natCast]
    have hmod : ¬ n % 2 = 1 := by omega
    rw [if_neg hmod]
    have h1 : n / 2 = m + 1 := by omega
    have h2 : n / 2 - 1 = m := by omega
    rw [h2, h1]
    push_cast
    ring
  · obtain ⟨k, hk⟩ := ho
    have hpos : (50 : ℚ) / 100 * ((n : ℚ) - 1) = ((k : ℤ) : ℚ) := by
      rw [hk]
      push_cast
      ring
    rw [hpos]
    have hfloor : Rat.floor (((k : ℤ) : ℚ)) = (k : ℤ) := by
      rw [ratFloor_eq_intFloor, Int.floor_intCast]
    rw [hfloor, Int.toNat_natCast]
    have hmod : n % 2 = 1 := by omega
    rw [if_pos hmod]
    have h1 : n / 2 = k := by omega
    rw [h1]
    push_cast
    ring

theorem getPercentile_50 : getPercentile "percentile_50" = 50 := by decide

/-- The stats block of a run requesting only `percentile_50`, looked up at
that stat. -/
theorem buildFeatureStats_pct50 (categorical : Bool) (cmap : Option (List (ℚ × String)))
    (c : List ℚ) (h : c ≠ []) :
    dictGet (buildFeatureStats categorical cmap ["percentile_50"] c)
      (Key.str "percentile_50") = Option.some (Value.num (npPercentile c 50)) := by
  unfold buildFeatureStats
  dsimp only
  rw [if_neg (show ¬ "range" ∈ ["percentile_50"] from by decide)]
  rw [show List.filter isPercentileName ["percentile_50"] = ["percentile_50"] from rfl]
  rw [List.foldl_cons, List.foldl_nil]
  rw [if_neg h, dictGet_dictSet_self, getPercentile_50]

/-- The stats block of a run requesting only `median`, looked up at
`median`. -/
theorem buildFeatureStats_median (categorical : Bool) (cmap : Option (List (ℚ × String)))
    (c : List ℚ) :
    dictGet (buildFeatureStats categorical cmap ["median"] c) (Key.str "median") =
      Option.some (Value.num (npMedian c)) := by
  unfold buildFeatureStats
  dsimp only
  rw [if_neg (show ¬ "range" ∈ ["median"] from by decide)]
  rw [show List.filter isPercentileName ["median"] = ([] : List String) from rfl]
  rw [List.foldl_nil]
  unfold statsThroughUnique
  dsimp only
  rw [dictGet_ite_set_ne (show Key.str "unique" ≠ Key.str "median" from by decide)]
  rw [dictGet_ite_set_ne (show Key.str "minority" ≠ Key.str "median" from by decide)]
  rw [dictGet_ite_set_ne (show Key.str "majority" ≠ Key.str "median" from by decide)]
  rw [if_pos (show "median" ∈ ["median"] from by decide), dictGet_dictSet_self]

/-- C9: for every surviving value set and categorical configuration,
requesting `percentile_50` (main.py lines 229-235) yields the same value
for that stat as requesting `median` (main.py lines 204-205) does for
`median`: both are the linear-interpolation middle of the sorted surviving
values (exact equality in the rational model, hence well within
floating-point tolerance). -/
theorem C9_percentile50_eq_median (categorical : Bool) (cmap : Option (List (ℚ × String)))
    (c : List ℚ) (h : c ≠ []) :
    dictGet (buildFeatureStats categorical cmap ["percentile_50"] c)
      (Key.str "percentile_50") =
    dictGet (buildFeatureStats categorical cmap ["median"] c) (Key.str "median") := by
  rw [buildFeatureStats_pct50 categorical cmap c h, buildFeatureStats_median,
    npPercentile_50 c h]

/-- C9 witness: the percentile/median round-trip at the concrete surviving
values [3, 1, 2, 4]; both stats are 5/2. -/
theorem C9_percentile50_eq_median_witness :
    dictGet (buildFeatureStats false Option.none ["percentile_50"] [3, 1, 2, 4])
      (Key.str "percentile_50") =
    dictGet (buildFeatureStats false Option.none ["median"] [3, 1, 2, 4])
      (Key.str "median")
    ∧ dictGet (buildFeatureStats false Option.none ["median"] [3, 1, 2, 4])
      (Key.str "median") = Option.some (Value.num (5 / 2)) :=
  ⟨C9_percentile50_eq_median false Option.none [3, 1, 2, 4] (by decide), by decide⟩

end RasterStats
